import Mathlib

/-!
Verification of the place-resolution and single-flight script-loading core of
the GetGoogleReviewLinkHelper page (src/JS/PlacesHandler.js, src/JS/main.js).

The JavaScript is shallowly embedded: the mapping provider (Google Places)
is an opaque `Provider` of pure lookup functions, promises are modelled as
numbered futures with an explicit settlement table, and `window.initMap`,
the load timer and `this.mapsLoadingPromise` become fields of an explicit
`LoaderState`.  Errors are the exact message strings the code throws; a
`URIError` raised by `decodeURIComponent` is kept as a separate constructor
because it is a distinct JavaScript error type.
-/

/-- A JavaScript exception: either an ordinary `Error` with its message, or a
`URIError` as thrown by `decodeURIComponent`. -/
inductive JsError where
  | err : String → JsError
  | uriError : String → JsError
deriving DecidableEq

/-- A place record as returned by the provider.  `displayName` and
`formattedAddress` are `Option`s because the provider may omit them
(JavaScript `undefined`). -/
structure Place where
  id : String
  displayName : Option String
  formattedAddress : Option String
deriving DecidableEq

/-- The opaque mapping provider: `byId` models `Place.fetchFields` for a
given place id, `byText` models `Place.searchByText` returning the candidate
list. -/
structure Provider where
  byId : String → Place
  byText : String → List Place

/-- A call made to the provider, recorded so theorems can state which lookup
path `searchPlace` took. -/
inductive ApiCall where
  | getById : String → ApiCall
  | textSearch : String → ApiCall
deriving DecidableEq

/-- Message of the `throw` at PlacesHandler.js:130. -/
def noResultsMsg : String := "No results found for the search query"

/-- Message of the `throw` at PlacesHandler.js:143. -/
def multipleDifferentMsg : String :=
  "Multiple different businesses found. Please be more specific with your search terms."

/-- How a JavaScript template literal renders a possibly-undefined string. -/
def jsShow (o : Option String) : String :=
  match o with
  | some s => s
  | none => "undefined"

/-- Fixed text preceding the interpolated name at PlacesHandler.js:149. -/
def sameNameMsgPre : String := "Multiple locations for \""

/-- Fixed text following the interpolated name at PlacesHandler.js:149. -/
def sameNameMsgPost : String :=
  "\" found. Please include city or address in your search."

/-- Message of the `throw` at PlacesHandler.js:149; it interpolates only the
first result's display name. -/
def sameNameMsg (o : Option String) : String :=
  sameNameMsgPre ++ jsShow o ++ sameNameMsgPost

/-- Message of the rejection at PlacesHandler.js:38 (timer fired). -/
def timeoutMsg : String :=
  "Timeout loading Google Maps. Please check your API key and try again."

/-- Message of the rejection at PlacesHandler.js:70 (script.onerror). -/
def loadFailureMsg : String :=
  "Failed to load Google Maps script. Check your API key, internet connection, and browser console for details."

/-- Message of the rejection at PlacesHandler.js:53 (initMap fired but API
absent). -/
def incompleteLoadMsg : String := "Google Maps API did not load properly"

/-! ### URL pattern matching (PlacesHandler.js:85-109)

`input.match(/[?&]place_id=([^&]+)/)` is embedded directly: the regex engine
scans for the leftmost position holding `?` or `&` followed by the literal
key and at least one non-`&` character; the capture is the maximal run of
non-`&` characters. -/

/-- Leftmost match of `[?&]<key>([^&]+)`, returning the capture group. -/
def matchParamAux (key : List Char) : List Char → Option (List Char)
  | [] => none
  | c :: rest =>
    if (c = '?' ∨ c = '&') ∧ rest.take key.length = key ∧
        (rest.drop key.length).takeWhile (fun d => d != '&') ≠ [] then
      some ((rest.drop key.length).takeWhile fun d => d != '&')
    else matchParamAux key rest

/-- PlacesHandler.extractPlaceIdFromUrl: try `[?&]place_id=([^&]+)`, then
`[?&]ftid=([^&]+)`, else `null`. -/
def extractPlaceIdFromUrl (input : String) : Option String :=
  match matchParamAux "place_id=".toList input.toList with
  | some v => some (String.mk v)
  | none =>
    match matchParamAux "ftid=".toList input.toList with
    | some v => some (String.mk v)
    | none => none

/-- Leftmost match of `\/place\/([^\/]+)`, returning the capture group. -/
def matchPlaceSeg : List Char → Option (List Char)
  | [] => none
  | c :: rest =>
    if c = '/' ∧ rest.take 6 = "place/".toList ∧
        (rest.drop 6).takeWhile (fun d => d != '/') ≠ [] then
      some ((rest.drop 6).takeWhile fun d => d != '/')
    else matchPlaceSeg rest

/-- `.replace(/\+/g, ' ')` applied characterwise. -/
def plusToSpace (c : Char) : Char := if c = '+' then ' ' else c

/-! ### decodeURIComponent (ECMA-262 Decode with an empty reserved set)

A `%` must be followed by two hex digits; a lead byte ≥ 0x80 must begin a
valid UTF-8 sequence whose continuation bytes are themselves %-escaped;
overlong encodings, surrogate code points and values above 0x10FFFF are
rejected.  Failure (`none`) models the thrown `URIError`. -/

/-- Value of one hex digit, if the character is one (code points 48-57 are
the digits, 65-70 upper-case A-F, 97-102 lower-case a-f). -/
def hexVal (c : Char) : Option Nat :=
  let n := c.toNat
  if 48 ≤ n ∧ n ≤ 57 then some (n - 48)
  else if 65 ≤ n ∧ n ≤ 70 then some (n - 55)
  else if 97 ≤ n ∧ n ≤ 102 then some (n - 87)
  else none

/-- Read two hex digits, returning the byte and the remaining input. -/
def pctHex : List Char → Option (Nat × List Char)
  | h :: l :: rest =>
    match hexVal h, hexVal l with
    | some hv, some lv => some (hv * 16 + lv, rest)
    | _, _ => none
  | _ => none

/-- Read one %-escaped UTF-8 continuation byte (`%XX` with 0x80 ≤ XX < 0xC0),
returning its low six bits. -/
def pctCont (l : List Char) : Option (Nat × List Char) :=
  match l with
  | c :: t =>
    if c = '%' then
      match pctHex t with
      | some (b, r) => if 0x80 ≤ b ∧ b < 0xC0 then some (b - 0x80, r) else none
      | none => none
    else none
  | [] => none

/-- Decode one output character (one code point), returning it and the
remaining input; `none` models `URIError`. -/
def decodeOne (l : List Char) : Option (Char × List Char) :=
  match l with
  | [] => none
  | c :: rest =>
    if c = '%' then
      match pctHex rest with
      | none => none
      | some (b, r1) =>
        if b < 0x80 then some (Char.ofNat b, r1)
        else if b < 0xC0 then none
        else if b < 0xE0 then
          match pctCont r1 with
          | none => none
          | some (x1, r2) =>
            if (b - 0xC0) * 64 + x1 < 0x80 then none
            else some (Char.ofNat ((b - 0xC0) * 64 + x1), r2)
        else if b < 0xF0 then
          match pctCont r1 with
          | none => none
          | some (x1, r2) =>
            match pctCont r2 with
            | none => none
            | some (x2, r3) =>
              if (b - 0xE0) * 4096 + x1 * 64 + x2 < 0x800 ∨
                  (0xD800 ≤ (b - 0xE0) * 4096 + x1 * 64 + x2 ∧
                    (b - 0xE0) * 4096 + x1 * 64 + x2 < 0xE000) then none
              else some (Char.ofNat ((b - 0xE0) * 4096 + x1 * 64 + x2), r3)
        else if b < 0xF8 then
          match pctCont r1 with
          | none => none
          | some (x1, r2) =>
            match pctCont r2 with
            | none => none
            | some (x2, r3) =>
              match pctCont r3 with
              | none => none
              | some (x3, r4) =>
                if (b - 0xF0) * 262144 + x1 * 4096 + x2 * 64 + x3 < 0x10000 ∨
                    0x10FFFF < (b - 0xF0) * 262144 + x1 * 4096 + x2 * 64 + x3 then none
                else some (Char.ofNat ((b - 0xF0) * 262144 + x1 * 4096 + x2 * 64 + x3), r4)
        else none
    else some (c, rest)

/-- Fuelled decoding loop; every success of `decodeOne` consumes at least one
input character, so fuel equal to the input length never runs out. -/
def decodeAux : Nat → List Char → Option (List Char)
  | _, [] => some []
  | 0, _ :: _ => none
  | fuel + 1, c :: cs =>
    match decodeOne (c :: cs) with
    | none => none
    | some (ch, rest) => (decodeAux fuel rest).map fun t => ch :: t

/-- `decodeURIComponent` on character lists; `none` models `URIError`. -/
def decodeURIComponentChars (l : List Char) : Option (List Char) :=
  decodeAux l.length l

/-- PlacesHandler.extractNameFromUrl: capture the `/place/` segment and
decode it (`+` to space, then percent-decoding).  The decode is unguarded in
the source, so a malformed escape surfaces as a `URIError`. -/
def extractNameFromUrl (input : String) : Except JsError (Option String) :=
  match matchPlaceSeg input.toList with
  | none => Except.ok none
  | some seg =>
    match decodeURIComponentChars (seg.map plusToSpace) with
    | none => Except.error (JsError.uriError "URI malformed")
    | some cs => Except.ok (some (String.mk cs))

/-! ### Disambiguation (PlacesHandler.searchPlaceByText, lines 116-155) -/

/-- PlacesHandler.searchPlaceByText applied to the provider's candidate
list: zero results throw; with more than one result, differing display
names throw, more than two same-named results throw; otherwise the first
result is returned. -/
def searchPlaceByText (places : List Place) : Except JsError Place :=
  match places with
  | [] => Except.error (JsError.err noResultsMsg)
  | first :: rest =>
    if 1 < (first :: rest).length then
      if !((first :: rest).all fun p => p.displayName == first.displayName) then
        Except.error (JsError.err multipleDifferentMsg)
      else if 2 < (first :: rest).length then
        Except.error (JsError.err (sameNameMsg first.displayName))
      else Except.ok first
    else Except.ok first

/-- PlacesHandler.getPlaceById: a direct identifier lookup at the provider. -/
def getPlaceById (prov : Provider) (placeId : String) : Place :=
  prov.byId placeId

/-- PlacesHandler.searchPlace: extract an identifier and look it up, or else
derive a text query (`extractNameFromUrl(input) || input`, with JavaScript
truthiness, so an empty decoded name would also fall back) and search by
text.  The second component records the provider calls made. -/
def searchPlace (prov : Provider) (input : String) :
    Except JsError Place × List ApiCall :=
  match extractPlaceIdFromUrl input with
  | some pid => (Except.ok (getPlaceById prov pid), [ApiCall.getById pid])
  | none =>
    match extractNameFromUrl input with
    | Except.error e => (Except.error e, [])
    | Except.ok nameOpt =>
      let searchQuery :=
        match nameOpt with
        | some s => if s = "" then input else s
        | none => input
      (searchPlaceByText (prov.byText searchQuery), [ApiCall.textSearch searchQuery])

/-! ### Display normalization (main.js displayPlaceInfo, lines 162-170) -/

/-- `const placeName = place.displayName || 'N/A'` — JavaScript `||`, so an
absent or empty name renders as the sentinel. -/
def displayPlaceName (place : Place) : String :=
  match place.displayName with
  | some s => if s = "" then "N/A" else s
  | none => "N/A"

/-- `const placeAddress = place.formattedAddress || 'N/A'`. -/
def displayPlaceAddress (place : Place) : String :=
  match place.formattedAddress with
  | some s => if s = "" then "N/A" else s
  | none => "N/A"

/-! ### The single-flight script loader (PlacesHandler.loadGoogleMaps)

Promises are numbered futures.  `settled` is the settle-once table of
outcomes; `mapsLoadingPromise`, `initMapHook` (the `window.initMap` slot),
and `timerFor` (the pending `setTimeout`) hold the future they belong to. -/

/-- The outcome a settled future was given. -/
inductive Settlement where
  | resolvedS : Settlement
  | rejectedS : String → Settlement
deriving DecidableEq

/-- The loader's mutable environment: handler fields plus the relevant
globals (`window.google.maps.places` presence, `window.initMap`). -/
structure LoaderState where
  googleLoaded : Bool
  mapsLoadingPromise : Option Nat
  initMapHook : Option Nat
  timerFor : Option Nat
  nextId : Nat
  settled : List (Nat × Settlement)
deriving DecidableEq

/-- What a call to `loadGoogleMaps` hands back: `Promise.resolve()` or a
numbered pending future. -/
inductive LoadResult where
  | resolvedNow : LoadResult
  | pending : Nat → LoadResult
deriving DecidableEq

/-- Result, post-state and number of script requests issued by one call. -/
structure CallEffect where
  result : LoadResult
  state : LoaderState
  scriptRequests : Nat
deriving DecidableEq

/-- Look up a future's settlement. -/
def lookupSettled (l : List (Nat × Settlement)) (p : Nat) : Option Settlement :=
  (l.find? fun e => e.1 == p).map fun e => e.2

/-- Settle a future once; later settlements of the same future are ignored,
as with JavaScript promises. -/
def settleOnce (l : List (Nat × Settlement)) (p : Nat) (o : Settlement) :
    List (Nat × Settlement) :=
  match lookupSettled l p with
  | some _ => l
  | none => (p, o) :: l

/-- PlacesHandler.loadGoogleMaps (lines 15-78): already loaded → resolved
future, no request; already loading → the same stored future, no request;
otherwise create a future, install the timer and the `initMap` hook, and
issue one script request. -/
def loadGoogleMaps (s : LoaderState) : CallEffect :=
  if s.googleLoaded then ⟨LoadResult.resolvedNow, s, 0⟩
  else
    match s.mapsLoadingPromise with
    | some p => ⟨LoadResult.pending p, s, 0⟩
    | none =>
      ⟨LoadResult.pending s.nextId,
        { googleLoaded := s.googleLoaded
          mapsLoadingPromise := some s.nextId
          initMapHook := some s.nextId
          timerFor := some s.nextId
          nextId := s.nextId + 1
          settled := s.settled }, 1⟩

/-- The timer callback (lines 35-39): null out `mapsLoadingPromise` and
reject the attempt's future.  It does not touch `window.initMap`. -/
def timeoutFires (s : LoaderState) : LoaderState :=
  match s.timerFor with
  | none => s
  | some a =>
    { s with timerFor := none
             mapsLoadingPromise := none
             settled := settleOnce s.settled a (Settlement.rejectedS timeoutMsg) }

/-- `script.onerror` of attempt `a` (lines 66-71): clear the timer, null out
`mapsLoadingPromise`, reject.  It does not touch `window.initMap`. -/
def scriptOnError (a : Nat) (s : LoaderState) : LoaderState :=
  { s with timerFor := none
           mapsLoadingPromise := none
           settled := settleOnce s.settled a (Settlement.rejectedS loadFailureMsg) }

/-- `window.initMap` of attempt `a` (lines 42-55): clear the timer, delete
the hook, then resolve if the capability is present, else reject.  It does
not touch `mapsLoadingPromise` on either branch. -/
def initMapFires (a : Nat) (s : LoaderState) : LoaderState :=
  { s with timerFor := none
           initMapHook := none
           settled := settleOnce s.settled a
             (if s.googleLoaded then Settlement.resolvedS
              else Settlement.rejectedS incompleteLoadMsg) }

/-- The eventual outcome a caller holding `r` observes in state `s`. -/
def futureOutcome (s : LoaderState) : LoadResult → Option Settlement
  | LoadResult.resolvedNow => some Settlement.resolvedS
  | LoadResult.pending p => lookupSettled s.settled p

deriving instance DecidableEq for Except

/-! ### Claim-side definitions

These follow the specification's wording, to be compared with the
definitions embedded from the source. -/

/-- The claimed disambiguation policy, written in the claim's order: exactly
one result is returned; with more, any differing display name fails; all
same with count exactly 2 returns the first; all same with count 3 or more
fails; zero results fail. -/
def claimOrderDisambiguation : List Place → Except JsError Place
  | [] => Except.error (JsError.err noResultsMsg)
  | [only] => Except.ok only
  | first :: q :: rest =>
    if (q :: rest).any fun p => p.displayName != first.displayName then
      Except.error (JsError.err multipleDifferentMsg)
    else if (first :: q :: rest).length = 2 then
      Except.ok first
    else
      Except.error (JsError.err (sameNameMsg first.displayName))

/-- The claim's notion of the input containing the query-style parameter
`<lead><key><X>`: `X` is non-empty, free of `&`, and runs until the next `&`
or the end of the string. -/
def containsQueryParam (lead : Char) (key : List Char) (input X : String) : Prop :=
  X.toList ≠ [] ∧ (∀ c ∈ X.toList, c ≠ '&') ∧
    ∃ pre post, input.toList = pre ++ (lead :: (key ++ (X.toList ++ post))) ∧
      (post = [] ∨ ∃ t, post = '&' :: t)

/-- The claim's notion of the input containing a `/place/` marker followed
by a (non-empty) segment terminated by the next `/` or the end. -/
def containsPlaceMarker (input : String) : Prop :=
  ∃ pre seg post, input.toList = pre ++ ("/place/".toList ++ (seg ++ post)) ∧
    seg ≠ [] ∧ (∀ c ∈ seg, c ≠ '/') ∧ (post = [] ∨ ∃ t, post = '/' :: t)

/-- Claim C3 as stated: whenever the input contains `?place_id=X` or
`&ftid=X`, the resolver calls the identifier lookup with exactly `X`. -/
def claimC3Statement : Prop :=
  ∀ (prov : Provider) (input X : String),
    (containsQueryParam '?' "place_id=".toList input X ∨
      containsQueryParam '&' "ftid=".toList input X) →
    (searchPlace prov input).2 = [ApiCall.getById X]

/-- Claim C4 as stated: each failure path (timer, transport error, hook
without capability) clears the stored pending future AND removes the global
readiness hook. -/
def claimC4Statement : Prop :=
  ∀ (s : LoaderState) (a : Nat),
    s.mapsLoadingPromise = some a → s.timerFor = some a → s.initMapHook = some a →
    s.googleLoaded = false →
    ((timeoutFires s).mapsLoadingPromise = none ∧ (timeoutFires s).initMapHook = none) ∧
    ((scriptOnError a s).mapsLoadingPromise = none ∧ (scriptOnError a s).initMapHook = none) ∧
    ((initMapFires a s).mapsLoadingPromise = none ∧ (initMapFires a s).initMapHook = none)

/-- Claim C9 as stated (the part the code violates): a record returned by
`resolve` never has an absent display name or formatted address. -/
def claimC9Statement : Prop :=
  ∀ (prov : Provider) (input : String) (r : Place) (calls : List ApiCall),
    searchPlace prov input = (Except.ok r, calls) →
    r.displayName ≠ none ∧ r.formattedAddress ≠ none

/-! ### Helper lemmas -/

/-- `takeWhile (· != stop)` of a clean run followed by a terminator (or the
end) is exactly the run. -/
theorem takeWhile_append_stop (stop : Char) (X post : List Char)
    (hX : ∀ c ∈ X, c ≠ stop) (hpost : post = [] ∨ ∃ t, post = stop :: t) :
    (X ++ post).takeWhile (fun d => d != stop) = X := by
  induction X with
  | nil =>
    rcases hpost with h | ⟨t, h⟩ <;> subst h <;>
      simp [List.takeWhile_cons]
  | cons c cs ih =>
    have hc : (c != stop) = true := bne_iff_ne.mpr (hX c (by simp))
    simp only [List.cons_append, List.takeWhile_cons, hc, if_pos]
    exact congrArg (c :: ·) (ih fun d hd => hX d (by simp [hd]))

/-- If the input decomposes as a parameter occurrence, the regex scan finds
some match. -/
theorem matchParamAux_isSome (key : List Char) (pre : List Char) (lead : Char)
    (X post : List Char) (hlead : lead = '?' ∨ lead = '&') (hX : X ≠ [])
    (hXc : ∀ c ∈ X, c ≠ '&') (hpost : post = [] ∨ ∃ t, post = '&' :: t) :
    (matchParamAux key (pre ++ (lead :: (key ++ (X ++ post))))).isSome = true := by
  induction pre with
  | nil =>
    have htake : (key ++ (X ++ post)).take key.length = key := List.take_left key (X ++ post)
    have hdrop : (key ++ (X ++ post)).drop key.length = X ++ post := List.drop_left key (X ++ post)
    have hval : (X ++ post).takeWhile (fun d => d != '&') = X :=
      takeWhile_append_stop '&' X post hXc hpost
    simp only [List.nil_append, matchParamAux]
    rw [if_pos]
    · simp
    · refine ⟨hlead, htake, ?_⟩
      rw [hdrop, hval]
      exact hX
  | cons c cs ih =>
    simp only [List.cons_append, matchParamAux]
    split
    · simp
    · exact ih

/-- If the input decomposes as a `/place/` marker with a clean non-empty
segment, the regex scan finds some match. -/
theorem matchPlaceSeg_isSome (pre seg post : List Char) (hseg : seg ≠ [])
    (hc : ∀ c ∈ seg, c ≠ '/') (hpost : post = [] ∨ ∃ t, post = '/' :: t) :
    (matchPlaceSeg (pre ++ ("/place/".toList ++ (seg ++ post)))).isSome = true := by
  induction pre with
  | nil =>
    have hsplit : "/place/".toList ++ (seg ++ post) =
        '/' :: ("place/".toList ++ (seg ++ post)) := rfl
    have hlen : ("place/".toList).length = 6 := rfl
    have htake : ("place/".toList ++ (seg ++ post)).take 6 = "place/".toList := by
      rw [← hlen]; exact List.take_left _ _
    have hdrop : ("place/".toList ++ (seg ++ post)).drop 6 = seg ++ post := by
      rw [← hlen]; exact List.drop_left _ _
    have hval : (seg ++ post).takeWhile (fun d => d != '/') = seg :=
      takeWhile_append_stop '/' seg post hc hpost
    rw [List.nil_append, hsplit]
    simp only [matchPlaceSeg]
    rw [if_pos]
    · simp
    · refine ⟨by trivial, htake, ?_⟩
      rw [hdrop, hval]
      exact hseg
  | cons c cs ih =>
    simp only [List.cons_append, matchPlaceSeg]
    split
    · simp
    · exact ih

/-- A successful `/place/` capture is never empty. -/
theorem matchPlaceSeg_ne_nil {l seg : List Char} (h : matchPlaceSeg l = some seg) :
    seg ≠ [] := by
  induction l with
  | nil => simp [matchPlaceSeg] at h
  | cons c rest ih =>
    simp only [matchPlaceSeg] at h
    split at h
    · next hcond =>
      injection h with h2
      rw [← h2]
      exact hcond.2.2
    · exact ih h

/-- Decoding a non-empty input, when it succeeds, yields a non-empty
output. -/
theorem decodeAux_ne_nil {fuel : Nat} {c : Char} {cs out : List Char}
    (h : decodeAux fuel (c :: cs) = some out) : out ≠ [] := by
  cases fuel with
  | zero => simp [decodeAux] at h
  | succ n =>
    simp only [decodeAux] at h
    cases hd : decodeOne (c :: cs) with
    | none => rw [hd] at h; exact absurd h (by simp)
    | some pr =>
      rw [hd] at h
      obtain ⟨t, _, h2⟩ := Option.map_eq_some'.mp h
      rw [← h2]
      simp

/-- Any `ok` result of the disambiguation is the first candidate. -/
theorem searchPlaceByText_ok_head {l : List Place} {r : Place}
    (h : searchPlaceByText l = Except.ok r) : l.head? = some r := by
  cases l with
  | nil => simp [searchPlaceByText] at h
  | cons a t =>
    simp only [searchPlaceByText] at h
    split at h
    · split at h
      · exact absurd h (by simp)
      · split at h
        · exact absurd h (by simp)
        · injection h with h2; rw [h2]; rfl
    · injection h with h2; rw [h2]; rfl

/-- If the input contains either accepted parameter, the identifier
extraction succeeds (with the value of the first match of the prioritised
keys). -/
theorem extractPlaceIdFromUrl_isSome_of {input X : String}
    (h : containsQueryParam '?' "place_id=".toList input X ∨
      containsQueryParam '&' "ftid=".toList input X) :
    ∃ Y, extractPlaceIdFromUrl input = some Y := by
  rcases h with ⟨hne, hc, pre, post, heq, hpost⟩ | ⟨hne, hc, pre, post, heq, hpost⟩
  · have hs := matchParamAux_isSome "place_id=".toList pre '?' X.toList post
      (Or.inl rfl) hne hc hpost
    rw [← heq] at hs
    obtain ⟨v, hv⟩ := Option.isSome_iff_exists.mp hs
    exact ⟨String.mk v, by simp only [extractPlaceIdFromUrl, hv]⟩
  · have hs := matchParamAux_isSome "ftid=".toList pre '&' X.toList post
      (Or.inr rfl) hne hc hpost
    rw [← heq] at hs
    obtain ⟨v, hv⟩ := Option.isSome_iff_exists.mp hs
    cases hp : matchParamAux "place_id=".toList input.toList with
    | some w => exact ⟨String.mk w, by simp only [extractPlaceIdFromUrl, hp]⟩
    | none => exact ⟨String.mk v, by simp only [extractPlaceIdFromUrl, hp, hv]⟩

/-- `any (· != x)` is the negation of `all (· == x)`. -/
theorem any_bne_eq_not_all (l : List Place) (x : Option String) :
    (l.any fun p => p.displayName != x) = !(l.all fun p => p.displayName == x) := by
  induction l with
  | nil => rfl
  | cons a t ih =>
    simp only [bne] at ih ⊢
    simp only [List.any_cons, List.all_cons, Bool.not_and, ih]

/-! ### Claim theorems -/

/-- C1: the disambiguation applied by `searchPlaceByText` agrees, on every
candidate list, with the claimed case analysis: zero results fail with the
no-results error; exactly one result is returned; more than one result with
any display name differing from the first fails with the different-names
error; all names equal with exactly two results returns the first; all
names equal with three or more results fails with the same-name error.  The
five cases are mutually exclusive and exhaustive, so their stated order is
also respected. -/
theorem searchPlaceByText_disambiguation_policy (places : List Place) :
    searchPlaceByText places = claimOrderDisambiguation places := by
  match places with
  | [] => rfl
  | [p] => rfl
  | first :: q :: rest =>
    simp only [searchPlaceByText, claimOrderDisambiguation]
    have h1 : 1 < (first :: q :: rest).length := by
      simp [List.length_cons]
    rw [if_pos h1]
    have hall : ((first :: q :: rest).all fun p => p.displayName == first.displayName) =
        ((q :: rest).all fun p => p.displayName == first.displayName) := by
      simp [List.all_cons]
    have hany : ((q :: rest).any fun p => p.displayName != first.displayName) =
        !((q :: rest).all fun p => p.displayName == first.displayName) :=
      any_bne_eq_not_all _ _
    rw [hall, hany]
    cases hb : ((q :: rest).all fun p => p.displayName == first.displayName) with
    | false => simp
    | true =>
      cases rest with
      | nil => simp
      | cons r rs => simp [List.length_cons]

/-- C3 counterexample: the claim quantifies over both parameter forms, but
for the input `"?place_id=A&ftid=B"` — which contains the parameter
`&ftid=B` with value `B` — the code calls the identifier lookup with `"A"`,
because the `place_id` pattern is tried first.  So the claim, as stated, is
false. -/
theorem claimC3_false : ¬ claimC3Statement := by
  intro h
  have h2 := h ⟨fun _ => ⟨"", none, none⟩, fun _ => []⟩ "?place_id=A&ftid=B" "B"
    (Or.inr ⟨by decide, by decide, "?place_id=A".toList, [], by decide, Or.inl rfl⟩)
  have h3 : (searchPlace (⟨fun _ => ⟨"", none, none⟩, fun _ => []⟩ : Provider)
      "?place_id=A&ftid=B").2 = [ApiCall.getById "A"] := by decide
  exact absurd (h2.symm.trans h3) (by decide)

/-- C3 (amended): for every input containing `?place_id=X` or `&ftid=X`,
`resolve` takes the identifier path: it calls `getPlaceById` with the value
of the first `[?&]place_id=` match if any (`place_id` takes priority over
`ftid`), otherwise the first `[?&]ftid=` match — in particular with exactly
`X` when that parameter is the first match — and it performs no text search
and raises no ambiguity error (it returns the provider's record). -/
theorem searchPlace_identifier_path (prov : Provider) (input X : String)
    (h : containsQueryParam '?' "place_id=".toList input X ∨
      containsQueryParam '&' "ftid=".toList input X) :
    ∃ Y, extractPlaceIdFromUrl input = some Y ∧
      searchPlace prov input =
        (Except.ok (getPlaceById prov Y), [ApiCall.getById Y]) := by
  obtain ⟨Y, hY⟩ := extractPlaceIdFromUrl_isSome_of h
  exact ⟨Y, hY, by simp [searchPlace, hY]⟩

/-- Witness for C3's amended theorem at the single-parameter input
`"https://maps.app/?place_id=ChIJ123"`, where the extracted value is exactly
the claimed `X`. -/
theorem searchPlace_identifier_path_witness :
    ∃ Y, extractPlaceIdFromUrl "https://maps.app/?place_id=ChIJ123" = some Y ∧
      searchPlace ⟨fun _ => ⟨"", none, none⟩, fun _ => []⟩
          "https://maps.app/?place_id=ChIJ123" =
        (Except.ok (getPlaceById ⟨fun _ => ⟨"", none, none⟩, fun _ => []⟩ Y),
          [ApiCall.getById Y]) :=
  searchPlace_identifier_path _ _ "ChIJ123"
    (Or.inl ⟨by decide, by decide, "https://maps.app/".toList, [], by decide, Or.inl rfl⟩)

/-- C7: with no extractable identifier, the search string is derived as
claimed: when the `/place/` capture succeeds and decodes to `d`, the text
search is performed with exactly `d` (the segment with `+` turned into
spaces and percent-escapes decoded); when the capture fails, the text
search is performed with the input itself, verbatim; and whenever the
input contains a `/place/` marker followed by a non-empty segment, the
capture does succeed. -/
theorem searchPlace_text_query (prov : Provider) (input : String)
    (hid : extractPlaceIdFromUrl input = none) :
    (∀ seg, matchPlaceSeg input.toList = some seg →
      ∀ d, decodeURIComponentChars (seg.map plusToSpace) = some d →
        searchPlace prov input =
          (searchPlaceByText (prov.byText (String.mk d)),
            [ApiCall.textSearch (String.mk d)])) ∧
    (matchPlaceSeg input.toList = none →
      searchPlace prov input =
        (searchPlaceByText (prov.byText input), [ApiCall.textSearch input])) ∧
    (containsPlaceMarker input → (matchPlaceSeg input.toList).isSome = true) := by
  refine ⟨?_, ?_, ?_⟩
  · intro seg hseg d hd
    have hne : seg ≠ [] := matchPlaceSeg_ne_nil hseg
    have hdne : d ≠ [] := by
      cases seg with
      | nil => exact absurd rfl hne
      | cons a t =>
        exact decodeAux_ne_nil
          (by simpa only [decodeURIComponentChars, List.map_cons] using hd)
    have hmkne : ¬ (String.mk d = "") := by
      intro hcon
      exact hdne (congrArg String.data hcon)
    simp only [searchPlace, hid, extractNameFromUrl, hseg, hd]
    rw [if_neg hmkne]
  · intro hnone
    simp only [searchPlace, hid, extractNameFromUrl, hnone]
  · rintro ⟨pre, seg, post, heq, hseg, hc, hpost⟩
    have hs := matchPlaceSeg_isSome pre seg post hseg hc hpost
    rw [← heq] at hs
    exact hs

/-- Witness for C7 at the claim's scenario shape: a place-path URL whose
segment decodes (plus-sign and percent-escape) to the human-readable name,
which is then the exact text query. -/
theorem searchPlace_text_query_witness :
    searchPlace ⟨fun _ => ⟨"", none, none⟩, fun _ => []⟩
        "https://maps.google.com/abc/place/Joes+Pizza%21/@12" =
      (searchPlaceByText
        ((⟨fun _ => ⟨"", none, none⟩, fun _ => []⟩ : Provider).byText "Joes Pizza!"),
        [ApiCall.textSearch "Joes Pizza!"]) :=
  (searchPlace_text_query ⟨fun _ => ⟨"", none, none⟩, fun _ => []⟩
      "https://maps.google.com/abc/place/Joes+Pizza%21/@12" (by decide)).1
    "Joes+Pizza%21".toList (by decide) "Joes Pizza!".toList (by decide)

/-- C10: for the input `"x/place/%ZZ"` (no identifier parameter, malformed
percent-escape in the `/place/` segment), `resolve` rejects with a
`URIError` before any provider call is made, and that error is not an
ordinary `Error` of any message — in particular none of the typed failure
kinds (timeout, load failure, incomplete load, no results, different
names, same-name multiple locations). -/
theorem decode_error_on_malformed_escape (prov : Provider) :
    searchPlace prov "x/place/%ZZ" =
      (Except.error (JsError.uriError "URI malformed"), []) ∧
    extractPlaceIdFromUrl "x/place/%ZZ" = none ∧
    (∀ m : String, JsError.uriError "URI malformed" ≠ JsError.err m) := by
  refine ⟨?_, by decide, fun m hcon => JsError.noConfusion hcon⟩
  have h1 : extractPlaceIdFromUrl "x/place/%ZZ" = none := by decide
  have h2 : extractNameFromUrl "x/place/%ZZ" =
      Except.error (JsError.uriError "URI malformed") := by decide
  simp only [searchPlace, h1, h2]

/-- Settling an unsettled future records its outcome. -/
theorem lookupSettled_settleOnce_of_none {l : List (Nat × Settlement)} {p : Nat}
    {o : Settlement} (h : lookupSettled l p = none) :
    lookupSettled (settleOnce l p o) p = some o := by
  simp only [settleOnce, h]
  simp [lookupSettled, List.find?_cons]

/-- C2: starting from a state with no stored future and the capability
absent, the first call issues exactly one script request and hands out the
fresh future; a second and a third call made while that load is pending
issue zero requests, leave the state unchanged, and receive the SAME future
object, whose eventual outcome for every such caller is the settlement of
that one shared future. -/
theorem loadGoogleMaps_single_flight (s : LoaderState)
    (h1 : s.googleLoaded = false) (h2 : s.mapsLoadingPromise = none) :
    (loadGoogleMaps s).scriptRequests = 1 ∧
    (loadGoogleMaps s).result = LoadResult.pending s.nextId ∧
    loadGoogleMaps ((loadGoogleMaps s).state) =
      ⟨LoadResult.pending s.nextId, (loadGoogleMaps s).state, 0⟩ ∧
    loadGoogleMaps ((loadGoogleMaps ((loadGoogleMaps s).state)).state) =
      ⟨LoadResult.pending s.nextId, (loadGoogleMaps s).state, 0⟩ ∧
    futureOutcome ((loadGoogleMaps s).state)
        (loadGoogleMaps ((loadGoogleMaps s).state)).result =
      lookupSettled s.settled s.nextId := by
  simp [loadGoogleMaps, h1, h2, futureOutcome]

/-- Witness for C2 at the initial loader state. -/
theorem loadGoogleMaps_single_flight_witness :
    (loadGoogleMaps ⟨false, none, none, none, 0, []⟩).scriptRequests = 1 ∧
    (loadGoogleMaps ⟨false, none, none, none, 0, []⟩).result = LoadResult.pending 0 ∧
    loadGoogleMaps ((loadGoogleMaps ⟨false, none, none, none, 0, []⟩).state) =
      ⟨LoadResult.pending 0, (loadGoogleMaps ⟨false, none, none, none, 0, []⟩).state, 0⟩ ∧
    loadGoogleMaps ((loadGoogleMaps ((loadGoogleMaps ⟨false, none, none, none, 0, []⟩).state)).state) =
      ⟨LoadResult.pending 0, (loadGoogleMaps ⟨false, none, none, none, 0, []⟩).state, 0⟩ ∧
    futureOutcome ((loadGoogleMaps ⟨false, none, none, none, 0, []⟩).state)
        (loadGoogleMaps ((loadGoogleMaps ⟨false, none, none, none, 0, []⟩).state)).result =
      lookupSettled [] 0 :=
  loadGoogleMaps_single_flight ⟨false, none, none, none, 0, []⟩ rfl rfl

/-- C4 counterexample: from the state reached by starting a load in a fresh
environment, the timer-fired failure path clears the stored future but
leaves `window.initMap` installed (`initMapHook = some 0`, not `none`), so
the claim that every failure path also removes the readiness hook is
false. -/
theorem claimC4_false : ¬ claimC4Statement := by
  intro h
  have h2 := h (loadGoogleMaps ⟨false, none, none, none, 0, []⟩).state 0 rfl rfl rfl rfl
  exact absurd h2.1.2 (by decide)

/-- C4 (amended): on the timer (`Timeout`) and transport (`LoadFailure`)
failure paths the loader clears the stored pending future and rejects, but
leaves the global readiness hook installed; on the hook-without-capability
path (`IncompleteLoad`) it removes the hook and rejects, but does NOT clear
the stored pending future, so a subsequent `ensureLoaded` call returns the
same already-rejected future and issues no fresh request.  Only the first
two paths restore a retryable baseline (their stale hook being overwritten
by the next attempt). -/
theorem loader_failure_cleanup (s : LoaderState) (a : Nat)
    (h1 : s.mapsLoadingPromise = some a) (h2 : s.timerFor = some a)
    (h3 : s.initMapHook = some a) (h4 : s.googleLoaded = false)
    (h5 : lookupSettled s.settled a = none) :
    ((timeoutFires s).mapsLoadingPromise = none ∧
      (timeoutFires s).initMapHook = some a ∧
      lookupSettled (timeoutFires s).settled a =
        some (Settlement.rejectedS timeoutMsg)) ∧
    ((scriptOnError a s).mapsLoadingPromise = none ∧
      (scriptOnError a s).initMapHook = some a ∧
      lookupSettled (scriptOnError a s).settled a =
        some (Settlement.rejectedS loadFailureMsg)) ∧
    ((initMapFires a s).initMapHook = none ∧
      (initMapFires a s).mapsLoadingPromise = some a ∧
      lookupSettled (initMapFires a s).settled a =
        some (Settlement.rejectedS incompleteLoadMsg) ∧
      loadGoogleMaps (initMapFires a s) =
        ⟨LoadResult.pending a, initMapFires a s, 0⟩) := by
  refine ⟨⟨?_, ?_, ?_⟩, ⟨?_, ?_, ?_⟩, ⟨?_, ?_, ?_, ?_⟩⟩
  · simp [timeoutFires, h2]
  · simp [timeoutFires, h2, h3]
  · simp [timeoutFires, h2, lookupSettled_settleOnce_of_none h5]
  · simp [scriptOnError]
  · simp [scriptOnError, h3]
  · simp [scriptOnError, lookupSettled_settleOnce_of_none h5]
  · simp [initMapFires]
  · simp [initMapFires, h1]
  · simp [initMapFires, h4, lookupSettled_settleOnce_of_none h5]
  · simp [loadGoogleMaps, initMapFires, h1, h4]

/-- Witness for C4's amended theorem at the state with one in-flight
attempt. -/
theorem loader_failure_cleanup_witness :
    ((timeoutFires ⟨false, some 0, some 0, some 0, 1, []⟩).mapsLoadingPromise = none ∧
      (timeoutFires ⟨false, some 0, some 0, some 0, 1, []⟩).initMapHook = some 0 ∧
      lookupSettled (timeoutFires ⟨false, some 0, some 0, some 0, 1, []⟩).settled 0 =
        some (Settlement.rejectedS timeoutMsg)) ∧
    ((scriptOnError 0 ⟨false, some 0, some 0, some 0, 1, []⟩).mapsLoadingPromise = none ∧
      (scriptOnError 0 ⟨false, some 0, some 0, some 0, 1, []⟩).initMapHook = some 0 ∧
      lookupSettled (scriptOnError 0 ⟨false, some 0, some 0, some 0, 1, []⟩).settled 0 =
        some (Settlement.rejectedS loadFailureMsg)) ∧
    ((initMapFires 0 ⟨false, some 0, some 0, some 0, 1, []⟩).initMapHook = none ∧
      (initMapFires 0 ⟨false, some 0, some 0, some 0, 1, []⟩).mapsLoadingPromise = some 0 ∧
      lookupSettled (initMapFires 0 ⟨false, some 0, some 0, some 0, 1, []⟩).settled 0 =
        some (Settlement.rejectedS incompleteLoadMsg) ∧
      loadGoogleMaps (initMapFires 0 ⟨false, some 0, some 0, some 0, 1, []⟩) =
        ⟨LoadResult.pending 0, initMapFires 0 ⟨false, some 0, some 0, some 0, 1, []⟩, 0⟩) :=
  loader_failure_cleanup ⟨false, some 0, some 0, some 0, 1, []⟩ 0 rfl rfl rfl rfl rfl

/-- C5: while an attempt is pending and unsettled, the timer callback
rejects the shared future with the timeout message and clears the stored
future, and the next `loadGoogleMaps` call issues one fresh script request
for a new pending future instead of being blocked by the stale attempt. -/
theorem timeout_rejects_and_retry_fresh (s : LoaderState) (a : Nat)
    (h1 : s.googleLoaded = false) (h2 : s.mapsLoadingPromise = some a)
    (h3 : s.timerFor = some a) (h4 : lookupSettled s.settled a = none) :
    lookupSettled (timeoutFires s).settled a =
      some (Settlement.rejectedS timeoutMsg) ∧
    (timeoutFires s).mapsLoadingPromise = none ∧
    (loadGoogleMaps (timeoutFires s)).scriptRequests = 1 ∧
    (loadGoogleMaps (timeoutFires s)).result = LoadResult.pending s.nextId := by
  refine ⟨?_, ?_, ?_, ?_⟩
  · simp [timeoutFires, h3, lookupSettled_settleOnce_of_none h4]
  · simp [timeoutFires, h3]
  · simp [loadGoogleMaps, timeoutFires, h3, h1]
  · simp [loadGoogleMaps, timeoutFires, h3, h1]

/-- Witness for C5 at the state with one in-flight attempt. -/
theorem timeout_rejects_and_retry_fresh_witness :
    lookupSettled (timeoutFires ⟨false, some 0, some 0, some 0, 1, []⟩).settled 0 =
      some (Settlement.rejectedS timeoutMsg) ∧
    (timeoutFires ⟨false, some 0, some 0, some 0, 1, []⟩).mapsLoadingPromise = none ∧
    (loadGoogleMaps (timeoutFires ⟨false, some 0, some 0, some 0, 1, []⟩)).scriptRequests = 1 ∧
    (loadGoogleMaps (timeoutFires ⟨false, some 0, some 0, some 0, 1, []⟩)).result =
      LoadResult.pending 1 :=
  timeout_rejects_and_retry_fresh ⟨false, some 0, some 0, some 0, 1, []⟩ 0 rfl rfl rfl rfl

/-- C6: when the capability is already present in the global environment,
`loadGoogleMaps` returns an already-resolved future, issues no script
request, and leaves the state untouched — it is idempotent after a
successful load. -/
theorem loadGoogleMaps_idempotent_after_success (s : LoaderState)
    (h : s.googleLoaded = true) :
    loadGoogleMaps s = ⟨LoadResult.resolvedNow, s, 0⟩ ∧
    futureOutcome s (loadGoogleMaps s).result = some Settlement.resolvedS := by
  have h1 : loadGoogleMaps s = ⟨LoadResult.resolvedNow, s, 0⟩ := by
    simp [loadGoogleMaps, h]
  exact ⟨h1, by rw [h1]; rfl⟩


/-- Witness for C6 at a post-success state. -/
theorem loadGoogleMaps_idempotent_after_success_witness :
    loadGoogleMaps ⟨true, some 0, none, none, 1, [(0, Settlement.resolvedS)]⟩ =
      ⟨LoadResult.resolvedNow, ⟨true, some 0, none, none, 1, [(0, Settlement.resolvedS)]⟩, 0⟩ ∧
    futureOutcome ⟨true, some 0, none, none, 1, [(0, Settlement.resolvedS)]⟩
        (loadGoogleMaps ⟨true, some 0, none, none, 1, [(0, Settlement.resolvedS)]⟩).result =
      some Settlement.resolvedS :=
  loadGoogleMaps_idempotent_after_success ⟨true, some 0, none, none, 1, [(0, Settlement.resolvedS)]⟩ rfl

/-- C8 counterexample: four same-named results and three same-named results
produce IDENTICAL error values, so the failure cannot carry the result
count; in particular the claimed
`AmbiguousSameNameMultipleLocations("Starbucks", 4)` — an error from which
the caller could render the count 4 — is not what the code produces. -/
theorem claimC8_false :
    searchPlaceByText
      [⟨"s1", some "Starbucks", some "a1"⟩, ⟨"s2", some "Starbucks", some "a2"⟩,
        ⟨"s3", some "Starbucks", some "a3"⟩, ⟨"s4", some "Starbucks", some "a4"⟩] =
    searchPlaceByText
      [⟨"s1", some "Starbucks", some "a1"⟩, ⟨"s2", some "Starbucks", some "a2"⟩,
        ⟨"s3", some "Starbucks", some "a3"⟩] := by decide

/-- C8 (amended): whenever a text search returns 3 or more results all
sharing the first result's display name, the failure is the error whose
message embeds the shared display name between fixed delimiters — so the
caller can render the name — but the message does not include the result
count. -/
theorem sameName_error_carries_name (places : List Place) (first : Place)
    (rest : List Place) (hp : places = first :: rest) (hlen : 2 < places.length)
    (hsame : (places.all fun p => p.displayName == first.displayName) = true) :
    searchPlaceByText places =
      Except.error (JsError.err
        (sameNameMsgPre ++ jsShow first.displayName ++ sameNameMsgPost)) := by
  subst hp
  have h1 : 1 < (first :: rest).length := by omega
  simp only [searchPlaceByText]
  rw [if_pos h1, hsame]
  simp only [Bool.not_true, Bool.false_eq_true, if_false]
  rw [if_pos hlen]
  rfl

/-- Witness for C8's amended theorem: three same-named results fail with the
message embedding the name `"Starbucks"`. -/
theorem sameName_error_carries_name_witness :
    searchPlaceByText
      [⟨"s1", some "Starbucks", some "a1"⟩, ⟨"s2", some "Starbucks", some "a2"⟩,
        ⟨"s3", some "Starbucks", some "a3"⟩] =
      Except.error (JsError.err
        (sameNameMsgPre ++ jsShow (some "Starbucks") ++ sameNameMsgPost)) :=
  sameName_error_carries_name _ ⟨"s1", some "Starbucks", some "a1"⟩
    [⟨"s2", some "Starbucks", some "a2"⟩, ⟨"s3", some "Starbucks", some "a3"⟩]
    rfl (by decide) (by decide)

/-- The same-name message determines the rendered name: the caller can
recover the name from the error. -/
theorem sameNameMsg_injective (n₁ n₂ : String)
    (h : sameNameMsgPre ++ n₁ ++ sameNameMsgPost = sameNameMsgPre ++ n₂ ++ sameNameMsgPost) :
    n₁ = n₂ := by
  have hd := congrArg String.data h
  simp only [String.data_append] at hd
  have h2 := List.append_cancel_right hd
  have h3 := List.append_cancel_left h2
  exact String.ext h3

/-- C9 counterexample: when the provider's sole candidate has absent name
and address fields, `resolve` succeeds and the record it returns still has
`displayName = none` — the record returned by `resolve` itself is NOT
normalized to the sentinel. -/
theorem claimC9_false : ¬ claimC9Statement := by
  intro h
  have h2 := h ⟨fun _ => ⟨"id1", none, none⟩, fun _ => [⟨"id1", none, none⟩]⟩ "Foo"
    ⟨"id1", none, none⟩ [ApiCall.textSearch "Foo"] (by decide)
  exact h2.1 rfl

/-- The displayed name is never empty and is either the sentinel or the
provider's value. -/
theorem displayPlaceName_spec (r : Place) :
    displayPlaceName r ≠ "" ∧
    (displayPlaceName r = "N/A" ∨ r.displayName = some (displayPlaceName r)) := by
  unfold displayPlaceName
  cases r.displayName with
  | none => exact ⟨by decide, Or.inl rfl⟩
  | some s =>
    by_cases hs : s = ""
    · subst hs; exact ⟨by decide, Or.inl rfl⟩
    · refine ⟨?_, Or.inr ?_⟩
      · show (if s = "" then "N/A" else s) ≠ ""
        rw [if_neg hs]; exact hs
      · show some s = some (if s = "" then "N/A" else s)
        rw [if_neg hs]

/-- The displayed address is never empty and is either the sentinel or the
provider's value. -/
theorem displayPlaceAddress_spec (r : Place) :
    displayPlaceAddress r ≠ "" ∧
    (displayPlaceAddress r = "N/A" ∨ r.formattedAddress = some (displayPlaceAddress r)) := by
  unfold displayPlaceAddress
  cases r.formattedAddress with
  | none => exact ⟨by decide, Or.inl rfl⟩
  | some s =>
    by_cases hs : s = ""
    · subst hs; exact ⟨by decide, Or.inl rfl⟩
    · refine ⟨?_, Or.inr ?_⟩
      · show (if s = "" then "N/A" else s) ≠ ""
        rw [if_neg hs]; exact hs
      · show some s = some (if s = "" then "N/A" else s)
        rw [if_neg hs]

/-- C9 (amended): every record `resolve` returns is the provider's record
verbatim — the identifier-path record or the head of the text-search
candidate list, with possibly absent fields; the "not available" sentinel
normalization happens in the display layer (`displayPlaceInfo`), whose
rendered name and address are never empty and equal the provider value when
present and non-empty, and `"N/A"` otherwise. -/
theorem searchPlace_record_verbatim (prov : Provider) (input : String) (r : Place)
    (calls : List ApiCall) (h : searchPlace prov input = (Except.ok r, calls)) :
    ((∃ pid, calls = [ApiCall.getById pid] ∧ r = getPlaceById prov pid) ∨
      (∃ q, calls = [ApiCall.textSearch q] ∧ (prov.byText q).head? = some r)) ∧
    displayPlaceName r ≠ "" ∧ displayPlaceAddress r ≠ "" ∧
    (displayPlaceName r = "N/A" ∨ r.displayName = some (displayPlaceName r)) ∧
    (displayPlaceAddress r = "N/A" ∨ r.formattedAddress = some (displayPlaceAddress r)) := by
  refine ⟨?_, (displayPlaceName_spec r).1, (displayPlaceAddress_spec r).1,
    (displayPlaceName_spec r).2, (displayPlaceAddress_spec r).2⟩
  unfold searchPlace at h
  cases hx : extractPlaceIdFromUrl input with
  | some pid =>
    simp only [hx, Prod.mk.injEq, Except.ok.injEq] at h
    exact Or.inl ⟨pid, h.2.symm, h.1.symm⟩
  | none =>
    cases hy : extractNameFromUrl input with
    | error e => simp [hx, hy] at h
    | ok nameOpt =>
      simp only [hx, hy, Prod.mk.injEq] at h
      exact Or.inr ⟨_, h.2.symm, searchPlaceByText_ok_head h.1⟩

/-- Witness for C9's amended theorem at a provider returning one fully
populated record for the text query `"Foo"`. -/
theorem searchPlace_record_verbatim_witness :
    ((∃ pid, [ApiCall.textSearch "Foo"] = [ApiCall.getById pid] ∧
        (⟨"id1", some "Name", some "Addr"⟩ : Place) =
          getPlaceById ⟨fun _ => ⟨"id1", some "Name", some "Addr"⟩,
            fun _ => [⟨"id1", some "Name", some "Addr"⟩]⟩ pid) ∨
      (∃ q, [ApiCall.textSearch "Foo"] = [ApiCall.textSearch q] ∧
        ((⟨fun _ => ⟨"id1", some "Name", some "Addr"⟩,
            fun _ => [⟨"id1", some "Name", some "Addr"⟩]⟩ : Provider).byText q).head? =
          some ⟨"id1", some "Name", some "Addr"⟩)) ∧
    displayPlaceName ⟨"id1", some "Name", some "Addr"⟩ ≠ "" ∧
    displayPlaceAddress ⟨"id1", some "Name", some "Addr"⟩ ≠ "" ∧
    (displayPlaceName ⟨"id1", some "Name", some "Addr"⟩ = "N/A" ∨
      (⟨"id1", some "Name", some "Addr"⟩ : Place).displayName =
        some (displayPlaceName ⟨"id1", some "Name", some "Addr"⟩)) ∧
    (displayPlaceAddress ⟨"id1", some "Name", some "Addr"⟩ = "N/A" ∨
      (⟨"id1", some "Name", some "Addr"⟩ : Place).formattedAddress =
        some (displayPlaceAddress ⟨"id1", some "Name", some "Addr"⟩)) :=
  searchPlace_record_verbatim
    ⟨fun _ => ⟨"id1", some "Name", some "Addr"⟩,
      fun _ => [⟨"id1", some "Name", some "Addr"⟩]⟩
    "Foo" ⟨"id1", some "Name", some "Addr"⟩ [ApiCall.textSearch "Foo"] (by decide)
